import Mathlib

/-!
Formal model of the template-population engine of the 7ma-backend repository.

The definitions below are a shallow embedding of the Python sources:
  * src/slide_updater.py   (layout resolver, content resolver, field mapper,
                            audio slot binder, slide update loop)
  * src/content_generator.py (cache-aware section writer)
  * src/services/pipeline.py (job orchestration of one pipeline run)
  * src/app.py              (job table handling)

Python strings are modelled by Lean `String`; the Python string methods used
by the sources (`str.strip`, `str.split` on a one-character separator,
`str.lower`, `int(...)` parsing, `c in s`) are re-implemented below as
executable char-list functions so that all definitions reduce in the kernel.
-/

/-! ## Python string primitives -/

/-- Characters removed by Python `str.strip()` (whitespace).  Modelled with
`Char.isWhitespace`, which covers the ASCII whitespace actually occurring in
the repository's data (space, tab, CR, LF). -/
def pyStripChars (cs : List Char) : List Char :=
  ((cs.dropWhile Char.isWhitespace).reverse.dropWhile Char.isWhitespace).reverse

/-- Python `s.strip()`. -/
def pyStrip (s : String) : String := ⟨pyStripChars s.data⟩

/-- Helper for `pySplitChar`: split a char list at every occurrence of `c`. -/
def splitOnCharAux (c : Char) : List Char → List Char → List (List Char)
  | acc, [] => [acc.reverse]
  | acc, x :: xs =>
    if x = c then acc.reverse :: splitOnCharAux c [] xs
    else splitOnCharAux c (x :: acc) xs

/-- Python `s.split(sep)` for a one-character separator `sep` (the sources
only ever split on the one-character separators "+" and "_"). -/
def pySplitChar (s : String) (c : Char) : List String :=
  (splitOnCharAux c [] s.data).map fun l => ⟨l⟩

/-- Python `sep in s` for a one-character `sep`. -/
def pyContainsChar (s : String) (c : Char) : Bool := s.data.contains c

/-- Python `s.lower()`.  `Char.toLower` matches Python on the ASCII letters
used by the repository's capability names. -/
def pyLower (s : String) : String := ⟨s.data.map Char.toLower⟩

/-- Digit-list accumulator for `pyParseInt`. -/
def intOfDigits (ds : List Char) : Int :=
  ds.foldl (fun n c => n * 10 + (c.toNat - '0'.toNat : Int)) 0

/-- Python `int(s)` on an already-stripped string: an optional sign followed
by at least one decimal digit, `none` when Python would raise `ValueError`.
(Underscore digit grouping, accepted by Python, is not modelled; it never
occurs in position expressions.) -/
def parseIntChars : List Char → Option Int
  | [] => none
  | '-' :: ds =>
    if ds ≠ [] ∧ ds.all Char.isDigit then some (-(intOfDigits ds)) else none
  | '+' :: ds =>
    if ds ≠ [] ∧ ds.all Char.isDigit then some (intOfDigits ds) else none
  | ds =>
    if ds.all Char.isDigit then some (intOfDigits ds) else none

/-- Python `int(s)`. -/
def pyParseInt (s : String) : Option Int := parseIntChars s.data

/-! ## Data model -/

/-- A slide position in the slide map: a (1-based) absolute integer or a
relative "label + N" expression kept as the raw string, exactly as in the
Python `slide_map` literals (src/slide_updater.py lines 17-114). -/
inductive Position where
  | int (n : Int)
  | str (s : String)
deriving DecidableEq, Repr

/-- The `source` entry of a slide spec (src/slide_updater.py `slide_map` and
`resolve_content`): `None`, a section name, or a collection-with-filter. -/
inductive SourceDef where
  | noSource
  | fieldName (name : String)
  | collectionMatch (collection : String) (filters : List (String × String))
deriving DecidableEq, Repr

/-- One entry of the `slide_map` list (src/slide_updater.py lines 17-114). -/
structure SlideSpec where
  label : String
  position : Position
  source : SourceDef := .noSource
  field_map : List (Nat × String) := []
  add_audio : Bool := false
deriving DecidableEq, Repr

/-- A content record.  JSON values reaching the field mapper go through
Python `str(...)`, so record values are modelled as strings. -/
abbrev Record := List (String × String)

/-- Python `record.get(key, "")`. -/
def recordGet (r : Record) (k : String) : String := (r.lookup k).getD ""

/-- One value of the generated-content bundle: a single record or a list of
records (src/content_generator.py produces both shapes). -/
inductive BundleEntry where
  | record (r : Record)
  | records (rs : List Record)
deriving DecidableEq, Repr

/-- The generated-content bundle (`content_dict` in src/slide_updater.py). -/
abbrev Bundle := List (String × BundleEntry)

/-! ## Layout resolver (src/slide_updater.py, resolve_positions, lines 145-161) -/

/-- The two exception kinds `resolve_positions` can raise:
`KeyError` ("Base label ... not resolved yet") is `unresolvedReference`, and
`ValueError` (the final `else` branch, a failed `int(...)` parse, or a
tuple-unpacking failure when the string does not split into exactly two
parts) is `invalidPosition`. -/
inductive ResolveError where
  | unresolvedReference
  | invalidPosition
deriving DecidableEq, Repr

/-- Parse a well-formed relative position string: Python lines 152-155.
The string must contain "+", `split("+")` must produce exactly two parts
(otherwise the unpacking raises `ValueError`), and the stripped offset must
parse with `int` (otherwise `ValueError`).  Returns the stripped base label
and the offset. -/
def relParts (s : String) : Option (String × Int) :=
  if pyContainsChar s '+' then
    match pySplitChar s '+' with
    | [b, o] =>
      match pyParseInt (pyStrip o) with
      | some off => some (pyStrip b, off)
      | none => none
    | _ => none
  else none

/-- One iteration of the `resolve_positions` loop.  The accumulating
association list models the Python dict `label_to_position` (new bindings
are consed in front, so `List.lookup` returns the most recent binding,
matching dict semantics).  Note that, as in the Python code, the offset is
parsed before the base label is looked up, so a malformed offset raises
`ValueError` even when the base label is also unresolved. -/
def resolveStep (acc : List (String × Int)) (item : SlideSpec) :
    Except ResolveError (List (String × Int)) :=
  match item.position with
  | .int n => .ok ((item.label, n - 1) :: acc)
  | .str s =>
    match relParts s with
    | none => .error .invalidPosition
    | some (base, off) =>
      match acc.lookup base with
      | none => .error .unresolvedReference
      | some bi => .ok ((item.label, bi + off) :: acc)

/-- The `resolve_positions` loop over the slide map. -/
def resolveAux (acc : List (String × Int)) :
    List SlideSpec → Except ResolveError (List (String × Int))
  | [] => .ok acc
  | item :: rest =>
    match resolveStep acc item with
    | .error e => .error e
    | .ok acc' => resolveAux acc' rest

/-- Python `resolve_positions(slide_map)`: label -> zero-based slide index,
a single left-to-right pass.  An absolute position `n` maps to `n - 1`; a
relative "base + N" maps to the already-resolved base index plus N. -/
def resolve_positions (slideMap : List SlideSpec) :
    Except ResolveError (List (String × Int)) :=
  resolveAux [] slideMap

/-! ## Content resolver (src/slide_updater.py, resolve_content, lines 185-221) -/

/-- Python `matches(item, match)` (lines 205-210): every filter field of the
item must equal the filter value after `str(...).strip().lower()` on both
sides. -/
def matchesFilter (itm : Record) (filters : List (String × String)) : Bool :=
  filters.all fun kv => pyLower (pyStrip (recordGet itm kv.1)) == pyLower (pyStrip kv.2)

/-- The collection fetched by `content_dict.get(collection_name, [])`.
A missing key yields `[]`.  (A name bound to a single record instead of a
list would make the Python code iterate over the dict's keys and then fail
on `itm.get`; that shape never occurs and is modelled as `[]`.) -/
def bundleCollection (bundle : Bundle) (name : String) : List Record :=
  match bundle.lookup name with
  | some (.records rs) => rs
  | _ => []

/-- Python `resolve_content(source_def, content_dict)`.  Returns the record
together with a flag recording whether the no-match diagnostic was printed.
The function is total: a failed collection match degrades to an empty record
plus a diagnostic, it never raises.  (A section name bound to a list of
records is returned by Python as that list, which downstream
`jsondata.get` calls cannot consume; that never-exercised shape is
modelled as an empty record.) -/
def resolve_content (sourceDef : SourceDef) (bundle : Bundle) : Record × Bool :=
  match sourceDef with
  | .noSource => ([], false)
  | .fieldName name =>
    match bundle.lookup name with
    | some (.record r) => (r, false)
    | _ => ([], false)
  | .collectionMatch name filters =>
    let coll := bundleCollection bundle name
    match coll.find? (fun itm => matchesFilter itm filters) with
    | some itm => (itm, false)
    | none => ([], true)

/-! ## Field mapper (src/slide_updater.py, update_slide_text_fields, lines 386-582) -/

/-- The part of a Slides `shape` object the updater reads: the value of the
`shapeType` key (absent keys give `none`) and the `textElements` list, where
each element is the `content` of its `textRun` (or `none` for elements
without a `textRun`). -/
structure Shape where
  shapeType : Option String := none
  textElements : List (Option String) := []
deriving DecidableEq, Repr

/-- One page element of a slide: its object id, its `shape` (when present),
whether a `video`/`audio` key is present, and the `translateX`/`translateY`
entries of its transform (Python defaults both to 0 via `.get`). -/
structure PageElement where
  objectId : String
  shape : Option Shape := none
  video : Bool := false
  translateX : Int := 0
  translateY : Int := 0
deriving DecidableEq, Repr

/-- A slide: its ordered page-element list. -/
abbrev Slide := List PageElement

/-- Python `_get_text_from_shape` (lines 332-340): concatenate the contents
of all text runs. -/
def getTextFromShape (sh : Shape) : String :=
  sh.textElements.foldl (fun acc t => acc ++ t.getD "") ""

/-- One collected text box (lines 449-457): object id, the whole shape
object, and the transform's left/top coordinates. -/
structure TextShape where
  objectId : String
  shape : Shape
  left : Int
  top : Int
deriving DecidableEq, Repr

/-- Collect the TEXT_BOX shapes of a slide (lines 449-457): elements whose
`shape` exists and whose `shapeType` equals "TEXT_BOX". -/
def collectTextShapes (els : Slide) : List TextShape :=
  els.filterMap fun el =>
    match el.shape with
    | some sh =>
      if sh.shapeType = some "TEXT_BOX" then
        some ⟨el.objectId, sh, el.translateX, el.translateY⟩
      else none
    | none => none

/-- Python `round(t / 10)` for an integer coordinate `t`: banker's rounding
(round half to even) of `t / 10`.  For integer `t` the float `t / 10` is
exact at every half, so this matches Python's float `round` on the
coordinate values the model covers. -/
def pyRoundDiv10 (t : Int) : Int :=
  let q := t.fdiv 10
  let r := t.emod 10
  if r < 5 then q
  else if r > 5 then q + 1
  else if q % 2 = 0 then q else q + 1

/-- The primary sort key `round(top / 10) * 10` (line 470): the top
coordinate rounded to a 10-unit row bucket. -/
def rowBucket (t : Int) : Int := 10 * pyRoundDiv10 t

/-- The Python sort key tuple `(round(top / 10) * 10, left)` compared
lexicographically, as a Boolean total preorder. -/
def shapeLE (a b : TextShape) : Bool :=
  decide (rowBucket a.top < rowBucket b.top ∨
    (rowBucket a.top = rowBucket b.top ∧ a.left ≤ b.left))

/-- Python `text_shapes.sort(key=lambda x: (round(x['top'] / 10) * 10,
x['left']))` (line 470): a stable ascending sort by the row-bucket/left key.
`List.mergeSort` is stable, matching Python's stable `list.sort`. -/
def sortTextShapes (ts : List TextShape) : List TextShape :=
  ts.mergeSort shapeLE

/-- One edit operation of the batched mutation (lines 494-508): a
`deleteText` of the whole range, or an `insertText` at a given insertion
index. -/
inductive EditOp where
  | clearRegion (objectId : String)
  | insertText (objectId : String) (insertionIndex : Nat) (text : String)
deriving DecidableEq, Repr

/-- The edit operations emitted for one `(index, field)` entry of the field
map (lines 475-509): skip when the index is out of range; skip when the
trimmed replacement value is empty (preserving the existing text); otherwise
a Clear (only when the current text is non-empty and not pure whitespace)
followed by an Insert of the trimmed value at insertion index 0. -/
def computeEditsEntry (textShapes : List TextShape) (jsondata : Record)
    (idx : Nat) (field : String) : List EditOp :=
  match textShapes[idx]? with
  | none => []
  | some ts =>
    let oldText := getTextFromShape ts.shape
    let newText := pyStrip (recordGet jsondata field)
    if newText = "" then []
    else
      (if oldText ≠ "" ∧ pyStrip oldText ≠ "" then [.clearRegion ts.objectId] else [])
        ++ [.insertText ts.objectId 0 newText]

/-- The full edit set of one slide: the per-entry operations of the field
map, concatenated in field-map (insertion) order. -/
def computeEdits (fieldMap : List (Nat × String)) (textShapes : List TextShape)
    (jsondata : Record) : List EditOp :=
  (fieldMap.map fun e => computeEditsEntry textShapes jsondata e.1 e.2).flatten

/-- Effect of one slide's batched edit operations on the text of the region
named `objectId`.  Modelled from the spec: the external document service
(spec section 6) applies ordered edit operations, `deleteText` over the ALL
range empties the region and `insertText` at index 0 prepends its text. -/
def applyOpsToText (ops : List EditOp) (objectId : String) (t : String) : String :=
  ops.foldl
    (fun cur op =>
      match op with
      | .clearRegion oid => if oid = objectId then "" else cur
      | .insertText oid _ s => if oid = objectId then s ++ cur else cur)
    t

/-! ## Slide updater (src/slide_updater.py, update_slide_text_fields and update_slides) -/

/-- Result of the audio portion of `update_slide_text_fields`
(lines 523-582). -/
inductive AudioOutcome where
  | skipped
  | missingFile (filename : String)
  | inserted (fileId : String)
  | insertFailed (message : String)
deriving DecidableEq, Repr

/-- Observable outcome of `update_slide_text_fields` on one slide:
either the early return when the slide has no text boxes (lines 465-467),
or the computed edit set (with whether the batch request was sent,
lines 513-520) plus the audio outcome. -/
inductive UpdateOutcome where
  | noTextBoxes
  | updated (edits : List EditOp) (batchExecuted : Bool) (audio : AudioOutcome)
deriving DecidableEq, Repr

/-- Errors a pipeline run can raise out of the slide-update phase:
a `resolve_positions` exception, a missing label in the resolved positions
dict (a `KeyError` that is in fact unreachable), or the `IndexError` for an
out-of-range slide index (line 421-422). -/
inductive RunError where
  | resolveFailed (e : ResolveError)
  | labelMissing (label : String)
  | slideIndexOutOfRange (idx : Int)
deriving DecidableEq, Repr

/-- Truthiness of the `audio_dir` argument (`if add_audio and audio_dir:`,
line 524): present and non-empty. -/
def audioDirTruthy : Option String → Bool
  | none => false
  | some d => d ≠ ""

/-- Rendering of `audio_index` inside the f-string filename; Python renders
`None` as "None". -/
def optNatStr : Option Nat → String
  | none => "None"
  | some n => toString n

/-- The audio filename of lines 528-530:
`{audio_prefix}_capability_{audio_index}_{label_suffix}.mp3`, where the
label suffix is the last "_"-separated token of the label (or
`slide{n+1}` when no label was passed). -/
def audioFilename (audioPref : String) (audioIdx : Option Nat)
    (label : Option String) (slideIdx : Int) : String :=
  let labelSuffix :=
    match label with
    | some l => (pySplitChar l '_').getLastD ""
    | none => "slide" ++ toString (slideIdx + 1)
  (if audioPref ≠ "" then audioPref ++ "_" else "")
    ++ "capability_" ++ optNatStr audioIdx ++ "_" ++ labelSuffix ++ ".mp3"

/-- Python `os.path.join(audio_dir, audio_filename)`. -/
def audioPath (audioDir : String) (filename : String) : String :=
  audioDir ++ "/" ++ filename

/-- The audio portion of `update_slide_text_fields` (lines 523-582).
`fileExists` models `os.path.exists`; `upload` models the Drive upload plus
video insertion, returning the uploaded file id or the exception text.
Every upload/insert exception is caught by the `except` on line 575 (the
`storageQuotaExceeded` test only selects an extra diagnostic message), so
this step is total: no failure propagates out of it. -/
def audioStep (addAudio : Bool) (audioDir : Option String)
    (audioIdx : Option Nat) (label : Option String) (slideIdx : Int)
    (audioPref : String) (fileExists : String → Bool)
    (upload : String → Except String String) : AudioOutcome :=
  if addAudio && audioDirTruthy audioDir then
    let fname := audioFilename audioPref audioIdx label slideIdx
    let path := audioPath (audioDir.getD "") fname
    if fileExists path then
      match upload path with
      | .ok fileId => .inserted fileId
      | .error e => .insertFailed e
    else .missingFile fname
  else .skipped

/-- Python `update_slide_text_fields` (lines 386-582), for the target slide
`slideIdx` of `slides`.  Raises `IndexError` for an out-of-range index;
returns early (before any edit and before the audio step) when the slide
has no text boxes; otherwise sorts the text boxes, computes the edit set,
sends the batch when non-empty, and runs the audio step. -/
def update_slide_text_fields (slides : List Slide) (jsondata : Record)
    (fieldMap : List (Nat × String)) (slideIdx : Int)
    (audioDir : Option String) (audioIdx : Option Nat)
    (label : Option String) (addAudio : Bool) (audioPref : String)
    (fileExists : String → Bool) (upload : String → Except String String) :
    Except RunError UpdateOutcome :=
  if slideIdx < 0 ∨ (slides.length : Int) ≤ slideIdx then
    .error (.slideIndexOutOfRange slideIdx)
  else
    let els := slides.getD slideIdx.toNat []
    let textShapes := collectTextShapes els
    if textShapes.length = 0 then .ok .noTextBoxes
    else
      let sorted := sortTextShapes textShapes
      let edits := computeEdits fieldMap sorted jsondata
      let audio := audioStep addAudio audioDir audioIdx label slideIdx
        audioPref fileExists upload
      .ok (.updated edits (edits ≠ []) audio)

/-- Per-slide result recorded by the `update_slides` loop: the label, the
resolved zero-based slide index, the audio index passed to
`update_slide_text_fields` (`None` for slides without `add_audio`), and the
update outcome. -/
structure SlideResult where
  label : String
  slideIndex : Int
  audioIndex : Option Nat
  outcome : UpdateOutcome
deriving DecidableEq, Repr

/-- The `for item in slide_map` loop of `update_slides` (lines 623-652),
carrying the audio counter that starts at 1 and is pre-incremented for every
spec with `add_audio=true` (so the first such spec gets index 2). -/
def updateSlidesLoop (slides : List Slide) (positions : List (String × Int))
    (contentDict : Bundle) (audioDir : Option String) (audioPref : String)
    (fileExists : String → Bool) (upload : String → Except String String)
    (counter : Nat) : List SlideSpec → Except RunError (List SlideResult)
  | [] => .ok []
  | item :: rest =>
    match positions.lookup item.label with
    | none => .error (.labelMissing item.label)
    | some slideIdx =>
      match update_slide_text_fields slides
          (resolve_content item.source contentDict).1 item.field_map slideIdx
          audioDir (if item.add_audio then some (counter + 1) else none)
          (some item.label) item.add_audio audioPref fileExists upload with
      | .error e => .error e
      | .ok outcome =>
        match updateSlidesLoop slides positions contentDict audioDir audioPref
            fileExists upload (if item.add_audio then counter + 1 else counter)
            rest with
        | .error e => .error e
        | .ok rs =>
          .ok (⟨item.label, slideIdx,
            if item.add_audio then some (counter + 1) else none, outcome⟩ :: rs)

/-- Python `_presentation_url` (lines 229-230). -/
def presentationUrl (presentationId : String) : String :=
  "https://docs.google.com/presentation/d/" ++ presentationId ++ "/preview"

/-- Python `update_slides` (lines 585-656), after the service setup and
connectivity check (plain remote calls, not modelled): resolve the slide
positions once, then walk the slide map in declaration order updating each
slide, threading the audio counter from 1.  Returns the per-slide results
and the final presentation URL; any exception of the loop propagates. -/
def update_slides (presentationId : String) (slides : List Slide)
    (slideMap : List SlideSpec) (contentDict : Bundle)
    (audioDir : Option String) (audioPref : String)
    (fileExists : String → Bool) (upload : String → Except String String) :
    Except RunError (List SlideResult × String) :=
  match resolve_positions slideMap with
  | .error e => .error (.resolveFailed e)
  | .ok positions =>
    match updateSlidesLoop slides positions contentDict audioDir audioPref
        fileExists upload 1 slideMap with
    | .error e => .error e
    | .ok rs => .ok (rs, presentationUrl presentationId)

/-! ## Artifact cache (src/content_generator.py, OutputPaths.write_json_if_changed, lines 89-103) -/

/-- Python `OutputPaths.section_path` (lines 76-77). -/
def section_path (basePath sectionName : String) : String :=
  basePath ++ "/" ++ sectionName ++ ".json"

/-- Result of one `write_json_if_changed` call: the artifact stored at the
section path afterwards, the number of filesystem writes performed, and the
returned path. -/
structure WriteResult (α : Type) where
  stored : Option α
  writes : Nat
  returnedPath : String
deriving DecidableEq, Repr

/-- Python `OutputPaths.write_json_if_changed` (lines 89-103).  `stored`
is the artifact currently on disk as seen by `load_json`: `none` when the
file is missing or not valid JSON.  `hash` abstracts
`sha256(json.dumps(content, ensure_ascii=False, indent=2))`, the content
hash of the canonical serialization, which the code applies to both the new
content and the re-serialized existing artifact.  When the two hashes are
equal the function skips the write and returns the target path; otherwise
it performs exactly one write of the serialized content. -/
def write_json_if_changed {α β : Type} (hash : α → β) [DecidableEq β]
    (basePath sectionName : String) (stored : Option α) (content : α) :
    WriteResult α :=
  let target := section_path basePath sectionName
  match stored with
  | some existing =>
    if hash existing = hash content then ⟨some existing, 0, target⟩
    else ⟨some content, 1, target⟩
  | none => ⟨some content, 1, target⟩

/-! ## Job orchestration (src/services/pipeline.py, run_full_pipeline, and src/app.py) -/

/-- One entry of the in-memory `jobs` table (src/app.py lines 32-37 create
it with status "processing" and no result/error; src/services/pipeline.py
mutates it). -/
structure Job where
  status : String
  slides_url : Option String
  error : Option String
  email : Option String
deriving DecidableEq, Repr

/-- The job as created on request acceptance (src/app.py lines 32-37). -/
def newJob : Job :=
  { status := "processing", slides_url := none, error := none, email := none }

/-- Human-readable message recorded for a run error (Python stores
`str(e)`; the exact interpolated exception texts are abbreviated to fixed
messages per error kind). -/
def describeRunError : RunError → String
  | .resolveFailed .unresolvedReference => "Base label not resolved yet"
  | .resolveFailed .invalidPosition => "Invalid position"
  | .labelMissing l => "KeyError: " ++ l
  | .slideIndexOutOfRange _ => "Slide index is out of range"

/-- Python `run_full_pipeline` (src/services/pipeline.py lines 17-133),
restricted to its job-state effect.  `contentOutcome` is the result of the
content-generation step (`run_pipeline`), `presentationId` the value of
`payload.get("presentation_id") or os.getenv("PRESENTATION_ID")`, `slidesRun` the
slide-update step (`update_slides`, returning the slides URL), and
`emailSend` the delivery attempt.  Any exception before the job is marked
completed is caught by the outer `except` (lines 128-133) and flips the job
to "error" with the message; the email step's failure is caught by its own
`except` (lines 113-117) and leaves the already-completed job untouched. -/
def run_full_pipeline (contentOutcome : Except String Bundle)
    (presentationId : Option String)
    (slidesRun : Bundle → Except RunError String)
    (deliveryMode : String) (emailAddr : Option String)
    (emailSend : Except String Unit) (job : Job) : Job :=
  match contentOutcome with
  | .error e => { job with status := "error", error := some e }
  | .ok bundle =>
    match presentationId with
    | none => { job with status := "error", error := some "presentation_id is required" }
    | some _ =>
      match slidesRun bundle with
      | .error e => { job with status := "error", error := some (describeRunError e) }
      | .ok url =>
        let completed :=
          { job with status := "completed", slides_url := some url, email := emailAddr }
        match (if (deliveryMode = "email" ∨ deliveryMode = "both") ∧ emailAddr.isSome
            then some emailSend else none) with
        | some (.error _) => completed
        | some (.ok _) => completed
        | none => completed

/-! ## Lemmas about the layout resolver -/

theorem resolveAux_append (l₁ l₂ : List SlideSpec) (acc : List (String × Int)) :
    resolveAux acc (l₁ ++ l₂) =
      match resolveAux acc l₁ with
      | .error e => .error e
      | .ok m => resolveAux m l₂ := by
  induction l₁ generalizing acc with
  | nil => simp [resolveAux]
  | cons item rest ih =>
    simp only [List.cons_append, resolveAux]
    cases resolveStep acc item with
    | error e => rfl
    | ok acc' => exact ih acc'

theorem resolveStep_ok_shape {acc m : List (String × Int)} {item : SlideSpec}
    (h : resolveStep acc item = .ok m) :
    ∃ v, m = (item.label, v) :: acc := by
  unfold resolveStep at h
  cases hp : item.position with
  | int n =>
    simp only [hp] at h
    exact ⟨n - 1, (Except.ok.inj h).symm⟩
  | str s =>
    simp only [hp] at h
    cases hr : relParts s with
    | none => simp only [hr] at h; simp at h
    | some p =>
      obtain ⟨base, off⟩ := p
      simp only [hr] at h
      cases hl : acc.lookup base with
      | none => simp only [hl] at h; simp at h
      | some bi =>
        simp only [hl] at h
        exact ⟨bi + off, (Except.ok.inj h).symm⟩

theorem resolveAux_lookup_not_mem {l : List SlideSpec}
    {acc m : List (String × Int)} {k : String}
    (h : resolveAux acc l = .ok m) (hk : k ∉ l.map SlideSpec.label) :
    m.lookup k = acc.lookup k := by
  induction l generalizing acc with
  | nil =>
    simp only [resolveAux] at h
    cases h
    rfl
  | cons item rest ih =>
    rw [List.map_cons, List.mem_cons] at hk
    push_neg at hk
    obtain ⟨hk1, hk2⟩ := hk
    unfold resolveAux at h
    cases hstep : resolveStep acc item with
    | error e => rw [hstep] at h; simp at h
    | ok acc' =>
      rw [hstep] at h
      obtain ⟨v, rfl⟩ := resolveStep_ok_shape hstep
      rw [ih h hk2, List.lookup_cons]
      have hbe : (k == item.label) = false := by simp [hk1]
      rw [hbe]

theorem resolveAux_lookup_isSome_mem {l : List SlideSpec}
    {acc m : List (String × Int)} {k : String}
    (h : resolveAux acc l = .ok m) (hs : (m.lookup k).isSome) :
    k ∈ l.map SlideSpec.label ∨ (acc.lookup k).isSome := by
  induction l generalizing acc with
  | nil =>
    simp only [resolveAux] at h
    cases h
    right
    exact hs
  | cons item rest ih =>
    unfold resolveAux at h
    cases hstep : resolveStep acc item with
    | error e => rw [hstep] at h; simp at h
    | ok acc' =>
      rw [hstep] at h
      obtain ⟨v, rfl⟩ := resolveStep_ok_shape hstep
      rcases ih h with hmem | hsome
      · left
        rw [List.map_cons, List.mem_cons]
        right
        exact hmem
      · rw [List.lookup_cons] at hsome
        cases hbe : k == item.label with
        | true =>
          left
          rw [List.map_cons, List.mem_cons]
          left
          exact eq_of_beq hbe
        | false =>
          right
          rw [hbe] at hsome
          exact hsome

theorem specs_split_at {specs : List SlideSpec} {i : Nat} {item : SlideSpec}
    (hi : specs[i]? = some item) :
    specs = specs.take i ++ item :: specs.drop (i + 1) := by
  obtain ⟨hlen, hget⟩ := List.getElem?_eq_some_iff.mp hi
  conv_lhs => rw [← List.take_append_drop i specs]
  rw [List.drop_eq_getElem_cons hlen, hget]

/-- C2: for every slide-spec list whose relative references point only to
earlier labels (formally: whenever `resolve_positions` succeeds on a spec
list with unique labels), each label with an absolute position `p` is mapped
to the zero-based index `p - 1`, and each label with a well-formed relative
position "base + N" is mapped to the base label's resolved index plus N, in
a single left-to-right pass; in particular the two-element spec list
`[(A, 1), (B, "A + 2")]` resolves to `A = 0` and `B = 2`. -/
theorem spec_C2 :
    (∀ (specs : List SlideSpec) (m : List (String × Int)),
        resolve_positions specs = .ok m →
        (specs.map SlideSpec.label).Nodup →
        ∀ (i : Nat) (item : SlideSpec), specs[i]? = some item →
          (∀ n : Int, item.position = .int n →
            m.lookup item.label = some (n - 1)) ∧
          (∀ (s b : String) (off : Int), item.position = .str s →
            relParts s = some (b, off) →
            ∃ bv, m.lookup b = some bv ∧ m.lookup item.label = some (bv + off))) ∧
      (∃ m, resolve_positions
            [{ label := "A", position := .int 1 }, { label := "B", position := .str "A + 2" }]
            = .ok m ∧
          m.lookup "A" = some 0 ∧ m.lookup "B" = some 2) := by
  constructor
  · intro specs m hres hnodup i item hi
    have hsplit := specs_split_at hi
    have happ := resolveAux_append (specs.take i) (item :: specs.drop (i + 1)) []
    rw [← hsplit] at happ
    unfold resolve_positions at hres
    rw [happ] at hres
    cases hpre : resolveAux [] (specs.take i) with
    | error e => rw [hpre] at hres; simp at hres
    | ok accI =>
      rw [hpre] at hres
      unfold resolveAux at hres
      cases hstep : resolveStep accI item with
      | error e => rw [hstep] at hres; simp at hres
      | ok accN =>
        rw [hstep] at hres
        have hnd := hnodup
        rw [hsplit, List.map_append, List.map_cons, List.nodup_append] at hnd
        obtain ⟨hnd1, hnd2, hdisj⟩ := hnd
        have hlabNotDrop : item.label ∉ (specs.drop (i + 1)).map SlideSpec.label :=
          (List.nodup_cons.mp hnd2).1
        constructor
        · intro n hpos
          have hshape : accN = (item.label, n - 1) :: accI := by
            unfold resolveStep at hstep
            simp only [hpos] at hstep
            exact (Except.ok.inj hstep).symm
          rw [resolveAux_lookup_not_mem hres hlabNotDrop, hshape,
            List.lookup_cons_self]
        · intro s b off hpos hrel
          unfold resolveStep at hstep
          simp only [hpos, hrel] at hstep
          cases hlk : accI.lookup b with
          | none => rw [hlk] at hstep; simp at hstep
          | some bv =>
            rw [hlk] at hstep
            have hshape : accN = (item.label, bv + off) :: accI :=
              (Except.ok.inj hstep).symm
            have hbmem : b ∈ (specs.take i).map SlideSpec.label := by
              rcases resolveAux_lookup_isSome_mem hpre (by rw [hlk]; rfl) with hm | habs
              · exact hm
              · simp at habs
            have hbNeLab : b ≠ item.label := by
              intro hEq
              exact hdisj hbmem (by rw [hEq]; exact List.mem_cons_self _ _)
            have hbNotDrop : b ∉ (specs.drop (i + 1)).map SlideSpec.label := by
              intro hmem'
              exact hdisj hbmem (List.mem_cons_of_mem _ hmem')
            refine ⟨bv, ?_, ?_⟩
            · rw [resolveAux_lookup_not_mem hres hbNotDrop, hshape, List.lookup_cons]
              have hbe : (b == item.label) = false := by simp [hbNeLab]
              rw [hbe, hlk]
            · rw [resolveAux_lookup_not_mem hres hlabNotDrop, hshape,
                List.lookup_cons_self]
  · exact ⟨[("B", 2), ("A", 0)], rfl, rfl, rfl⟩

/-- Witness for C2: the general statement applied to the concrete spec list
of the claim, at the relative-position entry B. -/
theorem spec_C2_witness :
    ∃ bv, ([("B", 2), ("A", 0)] : List (String × Int)).lookup "A" = some bv ∧
      ([("B", 2), ("A", 0)] : List (String × Int)).lookup "B" = some (bv + 2) :=
  (spec_C2.1
    [{ label := "A", position := .int 1 }, { label := "B", position := .str "A + 2" }]
    [("B", 2), ("A", 0)] rfl (by decide) 1 { label := "B", position := .str "A + 2" }
    rfl).2 "A + 2" "A" 2 rfl rfl

/-- C3: once resolution reaches an item (all earlier items resolved), a
well-formed relative position "base + N" whose base label is not among the
earlier labels (it appears later in declaration order or not at all) makes
`resolve_positions` fail with the `KeyError` modelled as
`unresolvedReference`; a position string that is not a well-formed
"label + N" expression (and hence not an integer either, those being the
`.int` case) makes it fail with the `ValueError` modelled as
`invalidPosition`. -/
theorem spec_C3 :
    ∀ (specs : List SlideSpec) (i : Nat) (item : SlideSpec)
      (m : List (String × Int)),
      resolve_positions (specs.take i) = .ok m →
      specs[i]? = some item →
      (∀ (s b : String) (off : Int), item.position = .str s →
        relParts s = some (b, off) →
        b ∉ (specs.take i).map SlideSpec.label →
        resolve_positions specs = .error .unresolvedReference) ∧
      (∀ s : String, item.position = .str s → relParts s = none →
        resolve_positions specs = .error .invalidPosition) := by
  intro specs i item m hpre hi
  have hsplit := specs_split_at hi
  have happ := resolveAux_append (specs.take i) (item :: specs.drop (i + 1)) []
  rw [← hsplit] at happ
  have hres : resolve_positions specs = resolveAux m (item :: specs.drop (i + 1)) := by
    unfold resolve_positions
    rw [happ]
    unfold resolve_positions at hpre
    rw [hpre]
  constructor
  · intro s b off hpos hrel hbNotMem
    have hlk : m.lookup b = none := by
      rw [resolveAux_lookup_not_mem hpre hbNotMem]
      rfl
    rw [hres]
    unfold resolveAux
    have hstep : resolveStep m item = .error .unresolvedReference := by
      unfold resolveStep
      simp only [hpos, hrel, hlk]
    rw [hstep]
  · intro s hpos hrel
    rw [hres]
    unfold resolveAux
    have hstep : resolveStep m item = .error .invalidPosition := by
      unfold resolveStep
      simp only [hpos, hrel]
    rw [hstep]

/-- Witness for C3: a one-element spec list whose single item references the
absent base label "A" fails with `unresolvedReference`, and a one-element
spec list with the malformed position "oops" fails with `invalidPosition`. -/
theorem spec_C3_witness :
    resolve_positions [{ label := "B", position := .str "A + 2" }]
        = .error .unresolvedReference ∧
      resolve_positions [{ label := "C", position := .str "oops" }]
        = .error .invalidPosition :=
  ⟨(spec_C3 [{ label := "B", position := .str "A + 2" }] 0
      { label := "B", position := .str "A + 2" } [] rfl rfl).1
      "A + 2" "A" 2 rfl rfl (by decide),
    (spec_C3 [{ label := "C", position := .str "oops" }] 0
      { label := "C", position := .str "oops" } [] rfl rfl).2
      "oops" rfl rfl⟩

/-! ## Lemmas about the visual sort -/

theorem shapeLE_total (a b : TextShape) : shapeLE a b || shapeLE b a := by
  simp only [shapeLE, Bool.or_eq_true, decide_eq_true_eq]
  omega

theorem shapeLE_trans (a b c : TextShape) (hab : shapeLE a b) (hbc : shapeLE b c) :
    shapeLE a c := by
  simp only [shapeLE, decide_eq_true_eq] at *
  omega

/-- C4: the placeholder regions of a slide are sorted by the key
(top coordinate rounded to a 10-unit row bucket, then left coordinate
ascending): the sort output is ordered by that key and is a permutation of
the input; in particular the two regions with (top 100, left 50) and
(top 98, left 10) — whose tops fall into the same 100 row bucket — sort to
the (top 98, left 10) region first. -/
theorem spec_C4 :
    (∀ ts : List TextShape,
        (sortTextShapes ts).Pairwise (fun a b => shapeLE a b = true) ∧
          (sortTextShapes ts).Perm ts) ∧
      sortTextShapes
          [{ objectId := "r1", shape := {}, left := 50, top := 100 },
            { objectId := "r2", shape := {}, left := 10, top := 98 }]
        = [{ objectId := "r2", shape := {}, left := 10, top := 98 },
            { objectId := "r1", shape := {}, left := 50, top := 100 }] := by
  refine ⟨fun ts => ⟨?_, ?_⟩, ?_⟩
  · exact List.sorted_mergeSort shapeLE_trans shapeLE_total ts
  · exact List.mergeSort_perm ts shapeLE
  · simp [sortTextShapes, List.mergeSort, List.merge, shapeLE, rowBucket, pyRoundDiv10]
    decide

/-! ## Field mapper claims -/

/-- C1 counterexample: with `field_map = (0, "name")`, record value
"Jericca" and the region already holding the text "Jericca" (the state
produced by a first run), the mapper emits the Clear-then-Insert pair
again — the second-run edit set is not empty, contradicting the claimed
edit-set idempotence. -/
theorem spec_C1_counterexample :
    computeEdits [(0, "name")]
        [{ objectId := "r0",
           shape := { shapeType := some "TEXT_BOX", textElements := [some "Jericca"] },
           left := 0, top := 0 }]
        [("name", "Jericca")]
      = [.clearRegion "r0", .insertText "r0" 0 "Jericca"] ∧
    computeEdits [(0, "name")]
        [{ objectId := "r0",
           shape := { shapeType := some "TEXT_BOX", textElements := [some "Jericca"] },
           left := 0, top := 0 }]
        [("name", "Jericca")]
      ≠ [] := by
  decide

/-- C1 (amended): the field mapper never compares a region's current text to
the mapped record value, so a second run with the same record data against
the region state produced by the first run re-emits, for every region whose
current (non-blank) text already equals the trimmed mapped value, the same
Clear-then-Insert pair; the edit set is not empty, but applying it leaves
the region's text unchanged — idempotence holds at the state level, not at
the edit-set level. -/
theorem spec_C1 :
    ∀ (textShapes : List TextShape) (record : Record) (idx : Nat)
      (field : String) (ts : TextShape),
      textShapes[idx]? = some ts →
      getTextFromShape ts.shape = pyStrip (recordGet record field) →
      pyStrip (getTextFromShape ts.shape) ≠ "" →
      computeEditsEntry textShapes record idx field
          = [.clearRegion ts.objectId,
             .insertText ts.objectId 0 (getTextFromShape ts.shape)] ∧
        applyOpsToText (computeEditsEntry textShapes record idx field)
            ts.objectId (getTextFromShape ts.shape)
          = getTextFromShape ts.shape := by
  intro textShapes record idx field ts hts hEq hne
  have hOldNe : getTextFromShape ts.shape ≠ "" := by
    intro h0
    apply hne
    rw [h0]
    rfl
  have hNewNe : pyStrip (recordGet record field) ≠ "" := by
    rw [← hEq]
    exact hOldNe
  have h1 : computeEditsEntry textShapes record idx field
      = [.clearRegion ts.objectId,
         .insertText ts.objectId 0 (getTextFromShape ts.shape)] := by
    unfold computeEditsEntry
    rw [hts]
    simp only [← hEq] at hNewNe ⊢
    rw [if_neg (by exact hNewNe), if_pos ⟨hOldNe, hne⟩]
    rfl
  refine ⟨h1, ?_⟩
  rw [h1]
  simp [applyOpsToText]

/-- Witness for C1 (amended): the concrete second-run input of the
counterexample, where the re-emitted Clear-then-Insert pair rewrites
"Jericca" to "Jericca". -/
theorem spec_C1_witness :
    computeEditsEntry
        [{ objectId := "r0",
           shape := { shapeType := some "TEXT_BOX", textElements := [some "Jericca"] },
           left := 0, top := 0 }]
        [("name", "Jericca")] 0 "name"
      = [.clearRegion "r0", .insertText "r0" 0 "Jericca"] ∧
    applyOpsToText [.clearRegion "r0", .insertText "r0" 0 "Jericca"] "r0" "Jericca"
      = "Jericca" :=
  by
  have h := spec_C1
    [{ objectId := "r0",
       shape := { shapeType := some "TEXT_BOX", textElements := [some "Jericca"] },
       left := 0, top := 0 }]
    [("name", "Jericca")] 0 "name"
    { objectId := "r0",
      shape := { shapeType := some "TEXT_BOX", textElements := [some "Jericca"] },
      left := 0, top := 0 }
    rfl (by decide) (by decide)
  exact ⟨h.1.trans (by decide), (by decide : applyOpsToText _ "r0" "Jericca" = "Jericca")⟩

/-- C5 counterexample: a region whose current text is a single space is
non-empty, yet the mapper emits no Clear for it (the Clear condition tests
the trimmed text): with record value "X" only the Insert is emitted,
contradicting "a Clear is emitted exactly when the region's current text is
non-empty". -/
theorem spec_C5_counterexample :
    computeEdits [(0, "name")]
        [{ objectId := "r0",
           shape := { shapeType := some "TEXT_BOX", textElements := [some " "] },
           left := 0, top := 0 }]
        [("name", "X")]
      = [.insertText "r0" 0 "X"] ∧
    getTextFromShape
        { shapeType := some "TEXT_BOX", textElements := [some " "] } ≠ "" := by
  decide

/-- C5 (amended): for every in-range `(index, fieldName)` entry of the field
map: if the trimmed value of the record field is empty (in particular when
the field is absent), no edit operation is emitted and the existing text is
preserved; otherwise a Clear is emitted exactly when the region's current
text is non-empty after trimming whitespace (whitespace-only text counts as
empty), followed by an Insert of the trimmed value at text index 0. -/
theorem spec_C5 :
    ∀ (textShapes : List TextShape) (record : Record) (idx : Nat)
      (field : String) (ts : TextShape),
      textShapes[idx]? = some ts →
      (pyStrip (recordGet record field) = "" →
        computeEditsEntry textShapes record idx field = []) ∧
      (pyStrip (recordGet record field) ≠ "" →
        (pyStrip (getTextFromShape ts.shape) ≠ "" →
          computeEditsEntry textShapes record idx field
            = [.clearRegion ts.objectId,
               .insertText ts.objectId 0 (pyStrip (recordGet record field))]) ∧
        (pyStrip (getTextFromShape ts.shape) = "" →
          computeEditsEntry textShapes record idx field
            = [.insertText ts.objectId 0 (pyStrip (recordGet record field))])) := by
  intro textShapes record idx field ts hts
  constructor
  · intro hv
    unfold computeEditsEntry
    rw [hts]
    simp only [hv]
    rfl
  · intro hv
    constructor
    · intro hOldTrim
      have hOldNe : getTextFromShape ts.shape ≠ "" := by
        intro h0
        apply hOldTrim
        rw [h0]
        rfl
      unfold computeEditsEntry
      rw [hts]
      simp [hv, hOldNe, hOldTrim]
    · intro hOldTrim
      unfold computeEditsEntry
      rw [hts]
      simp [hv, hOldTrim]

/-- Witness for C5 (amended): the end-to-end example of the spec —
`field_map = (0, "name")`, record value "Jericca", current text
"Name Placeholder" — yields the Clear-then-Insert pair. -/
theorem spec_C5_witness :
    computeEditsEntry
        [{ objectId := "r0",
           shape := { shapeType := some "TEXT_BOX",
                      textElements := [some "Name Placeholder"] },
           left := 0, top := 0 }]
        [("name", "Jericca")] 0 "name"
      = [.clearRegion "r0", .insertText "r0" 0 "Jericca"] :=
  by
  have h := ((spec_C5
    [{ objectId := "r0",
       shape := { shapeType := some "TEXT_BOX",
                  textElements := [some "Name Placeholder"] },
       left := 0, top := 0 }]
    [("name", "Jericca")] 0 "name"
    { objectId := "r0",
      shape := { shapeType := some "TEXT_BOX",
                 textElements := [some "Name Placeholder"] },
      left := 0, top := 0 }
    rfl).2 (by decide)).1 (by decide)
  exact h.trans (by decide)

/-! ## Lemmas about the audio counter of the update loop -/

theorem updateSlidesLoop_audioIndex {slides : List Slide}
    {positions : List (String × Int)} {contentDict : Bundle}
    {audioDir : Option String} {audioPref : String}
    {fileExists : String → Bool} {upload : String → Except String String} :
    ∀ (specs : List SlideSpec) (c : Nat) (rs : List SlideResult),
      updateSlidesLoop slides positions contentDict audioDir audioPref
          fileExists upload c specs = .ok rs →
      rs.length = specs.length ∧
      ∀ (i : Nat) (item : SlideSpec) (r : SlideResult),
        specs[i]? = some item → rs[i]? = some r →
        r.audioIndex =
          if item.add_audio then
            some (c + (specs.take (i + 1)).countP (fun it => it.add_audio))
          else none := by
  intro specs
  induction specs with
  | nil =>
    intro c rs h
    simp only [updateSlidesLoop] at h
    cases h
    exact ⟨rfl, by intro i item r hi hr; simp at hi⟩
  | cons item rest ih =>
    intro c rs h
    unfold updateSlidesLoop at h
    split at h
    · simp at h
    · rename_i slideIdx hlk
      split at h
      · simp at h
      · rename_i outcome hupd
        split at h
        · simp at h
        · rename_i rs' hloop
          have hrs : rs = ⟨item.label, slideIdx,
              if item.add_audio then some (c + 1) else none, outcome⟩ :: rs' :=
            (Except.ok.inj h).symm
          obtain ⟨hlen, hchar⟩ := ih _ _ hloop
          subst hrs
          refine ⟨by simp [hlen], ?_⟩
          intro i it r hi hr
          cases i with
          | zero =>
            simp only [List.getElem?_cons_zero] at hi hr
            cases hi
            cases hr
            cases hadd : item.add_audio with
            | false => simp [hadd]
            | true => simp [hadd, List.countP_cons]
          | succ i' =>
            simp only [List.getElem?_cons_succ] at hi hr
            have hidx := hchar i' it r hi hr
            rw [hidx]
            cases hadd : it.add_audio with
            | false => simp [hadd]
            | true =>
              simp only [hadd, if_true]
              have htake : (item :: rest).take (i' + 1 + 1)
                  = item :: rest.take (i' + 1) := rfl
              rw [htake, List.countP_cons]
              cases hia : item.add_audio with
              | false => simp [hia]
              | true => simp [hia]; omega

theorem countP_take_lt_of_getElem {l : List SlideSpec} {i j : Nat}
    {itj : SlideSpec} (hij : i < j) (hj : l[j]? = some itj)
    (hadd : itj.add_audio = true) :
    (l.take (i + 1)).countP (fun it => it.add_audio)
      < (l.take (j + 1)).countP (fun it => it.add_audio) := by
  have h1 : (l.take (i + 1)).countP (fun it => it.add_audio)
      ≤ (l.take j).countP (fun it => it.add_audio) :=
    (List.take_prefix_take_left l (by omega : i + 1 ≤ j)).countP_le _
  have h2 : l.take (j + 1) = l.take j ++ [itj] := by
    rw [List.take_succ, hj]
    rfl
  have h3 : List.countP (fun it => it.add_audio) [itj] = 1 := by
    simp [List.countP_cons, hadd]
  rw [h2, List.countP_append, h3]
  omega

/-- C6: walking the spec list in declaration order, a spec with
`add_audio=true` at index i is assigned the audio sequence index
1 + (number of add_audio specs among the first i+1 specs) — so the k-th
add_audio spec (1-based) gets k+1, the first gets 2 —, the assigned indices
are strictly increasing across add_audio specs, and specs without
`add_audio=true` are assigned no audio index. -/
theorem spec_C6 :
    ∀ (presentationId : String) (slides : List Slide)
      (slideMap : List SlideSpec) (contentDict : Bundle)
      (audioDir : Option String) (audioPref : String)
      (fileExists : String → Bool) (upload : String → Except String String)
      (rs : List SlideResult) (url : String),
      update_slides presentationId slides slideMap contentDict audioDir
          audioPref fileExists upload = .ok (rs, url) →
      rs.length = slideMap.length ∧
      (∀ (i : Nat) (item : SlideSpec) (r : SlideResult),
        slideMap[i]? = some item → rs[i]? = some r →
        (item.add_audio = false → r.audioIndex = none) ∧
        (item.add_audio = true →
          r.audioIndex
            = some (1 + (slideMap.take (i + 1)).countP (fun it => it.add_audio)))) ∧
      (∀ (i j : Nat) (iti itj : SlideSpec) (ri rj : SlideResult),
        i < j → slideMap[i]? = some iti → slideMap[j]? = some itj →
        rs[i]? = some ri → rs[j]? = some rj →
        iti.add_audio = true → itj.add_audio = true →
        ∃ vi vj, ri.audioIndex = some vi ∧ rj.audioIndex = some vj ∧ vi < vj) := by
  intro pid slides slideMap contentDict audioDir ap fe up rs url h
  unfold update_slides at h
  split at h
  · simp at h
  · rename_i positions hres
    split at h
    · simp at h
    · rename_i rs0 hloop
      have hpair := Except.ok.inj h
      have hrs : rs0 = rs := congrArg Prod.fst hpair
      rw [hrs] at hloop
      obtain ⟨hlen, hchar⟩ := updateSlidesLoop_audioIndex slideMap 1 rs hloop
      refine ⟨hlen, ?_, ?_⟩
      · intro i item r hi hr
        have hc := hchar i item r hi hr
        constructor
        · intro hf
          rw [hc, hf]
          simp
        · intro ht
          rw [hc, ht]
          simp
      · intro i j iti itj ri rj hij hi hj hri hrj haddi haddj
        have hvi := hchar i iti ri hi hri
        have hvj := hchar j itj rj hj hrj
        rw [haddi] at hvi
        rw [haddj] at hvj
        simp only [if_true] at hvi hvj
        refine ⟨_, _, hvi, hvj, ?_⟩
        have hlt := countP_take_lt_of_getElem hij hj haddj
        omega

/-- Witness for C6: a concrete two-spec run (second spec audio-bearing)
where the audio-bearing spec receives sequence index 2. -/
theorem spec_C6_witness :
    ({ label := "b", slideIndex := 0, audioIndex := some 2,
        outcome := .noTextBoxes } : SlideResult).audioIndex
      = some (1 + (([⟨"a", .int 1, .noSource, [], false⟩,
            ⟨"b", .int 1, .noSource, [], true⟩] : List SlideSpec).take 2).countP
          (fun it => it.add_audio)) :=
  ((spec_C6 "p" [[]]
      [⟨"a", .int 1, .noSource, [], false⟩, ⟨"b", .int 1, .noSource, [], true⟩]
      [] none "" (fun _ => false) (fun _ => .error "e")
      [⟨"a", 0, none, .noTextBoxes⟩, ⟨"b", 0, some 2, .noTextBoxes⟩]
      (presentationUrl "p") rfl).2.1 1
      ⟨"b", .int 1, .noSource, [], true⟩
      ⟨"b", 0, some 2, .noTextBoxes⟩ rfl rfl).2 rfl

/-- C7: when the stored artifact exists and the hash of its canonical
serialization equals the new content's hash, the cache-aware writer performs
zero filesystem writes and returns the existing section path unchanged; when
the hashes differ, or no valid stored artifact exists, it performs exactly
one rewrite of that section's file. -/
theorem spec_C7 :
    ∀ {α β : Type} [_inst : DecidableEq β] (hash : α → β)
      (basePath sectionName : String) (stored : Option α) (content : α),
      (∀ existing, stored = some existing → hash existing = hash content →
        write_json_if_changed hash basePath sectionName stored content
          = ⟨some existing, 0, section_path basePath sectionName⟩) ∧
      (∀ existing, stored = some existing → hash existing ≠ hash content →
        write_json_if_changed hash basePath sectionName stored content
          = ⟨some content, 1, section_path basePath sectionName⟩) ∧
      (stored = none →
        write_json_if_changed hash basePath sectionName stored content
          = ⟨some content, 1, section_path basePath sectionName⟩) := by
  intro α β _inst hash basePath sectionName stored content
  refine ⟨?_, ?_, ?_⟩
  · intro existing hst heq
    subst hst
    simp [write_json_if_changed, heq]
  · intro existing hst hne
    subst hst
    simp [write_json_if_changed, hne]
  · intro hst
    subst hst
    rfl

/-- Witness for C7: with content hashes modelled by the identity on natural
numbers, rewriting equal content performs zero writes, differing content
performs exactly one write. -/
theorem spec_C7_witness :
    write_json_if_changed (id : Nat → Nat) "output/u" "bio" (some 5) 5
        = ⟨some 5, 0, "output/u/bio.json"⟩ ∧
      write_json_if_changed (id : Nat → Nat) "output/u" "bio" (some 5) 6
        = ⟨some 6, 1, "output/u/bio.json"⟩ :=
  ⟨((spec_C7 (id : Nat → Nat) "output/u" "bio" (some 5) 5).1 5 rfl rfl).trans
      (by decide),
    ((spec_C7 (id : Nat → Nat) "output/u" "bio" (some 5) 6).2.1 5 rfl
      (by decide)).trans (by decide)⟩

/-! ## Content resolver claims -/

theorem find?_eq_some_of_first {α : Type} {p : α → Bool} :
    ∀ (l : List α) (i : Nat) (x : α), l[i]? = some x → p x = true →
      (∀ (j : Nat) (y : α), j < i → l[j]? = some y → p y = false) →
      l.find? p = some x := by
  intro l
  induction l with
  | nil => intro i x hi; simp at hi
  | cons a l ih =>
    intro i x hi hp hmin
    cases i with
    | zero =>
      simp only [List.getElem?_cons_zero] at hi
      cases hi
      exact List.find?_cons_of_pos _ hp
    | succ i' =>
      have ha : p a = false := hmin 0 a (Nat.succ_pos _) (by simp)
      rw [List.find?_cons_of_neg _ (by simp [ha])]
      simp only [List.getElem?_cons_succ] at hi
      refine ih i' x hi hp (fun j y hj hy => hmin (j + 1) y (by omega) ?_)
      simp only [List.getElem?_cons_succ]
      exact hy

/-- C8: for a collection-with-filter source, content resolution returns the
first record of the named list whose filter fields all equal the filter
values after trimming whitespace and lowercasing; when no record matches it
returns the empty record together with the printed diagnostic (the Boolean
flag), and, being a total function, it raises no error; in particular the
filter capability="Inform" matches a record with capability "inform". -/
theorem spec_C8 :
    ∀ (bundle : Bundle) (name : String) (filters : List (String × String)),
      (∀ (i : Nat) (itm : Record),
        (bundleCollection bundle name)[i]? = some itm →
        matchesFilter itm filters = true →
        (∀ (j : Nat) (itm' : Record), j < i →
          (bundleCollection bundle name)[j]? = some itm' →
          matchesFilter itm' filters = false) →
        resolve_content (.collectionMatch name filters) bundle = (itm, false)) ∧
      ((∀ itm ∈ bundleCollection bundle name, matchesFilter itm filters = false) →
        resolve_content (.collectionMatch name filters) bundle = ([], true)) ∧
      (∀ itm : Record, matchesFilter itm filters = true ↔
        ∀ kv ∈ filters,
          pyLower (pyStrip (recordGet itm kv.1)) = pyLower (pyStrip kv.2)) ∧
      resolve_content (.collectionMatch "uses" [("capability", "Inform")])
          [("uses", .records [[("capability", "inform"), ("x", "1")]])]
        = ([("capability", "inform"), ("x", "1")], false) := by
  intro bundle name filters
  refine ⟨?_, ?_, ?_, ?_⟩
  · intro i itm hi hm hfirst
    have hfind : (bundleCollection bundle name).find?
        (fun itm => matchesFilter itm filters) = some itm :=
      find?_eq_some_of_first _ i itm hi hm hfirst
    simp [resolve_content, hfind]
  · intro hall
    have hfind : (bundleCollection bundle name).find?
        (fun itm => matchesFilter itm filters) = none :=
      List.find?_eq_none.mpr (fun x hx => by simp [hall x hx])
    simp [resolve_content, hfind]
  · intro itm
    simp [matchesFilter, List.all_eq_true]
  · rfl

/-- Witness for C8: the general statement applied to the claim's concrete
case-difference example. -/
theorem spec_C8_witness :
    resolve_content (.collectionMatch "uses" [("capability", "Inform")])
        [("uses", .records [[("capability", "inform"), ("x", "1")]])]
      = ([("capability", "inform"), ("x", "1")], false) :=
  (spec_C8 [("uses", .records [[("capability", "inform"), ("x", "1")]])]
      "uses" [("capability", "Inform")]).1 0
    [("capability", "inform"), ("x", "1")] rfl (by decide)
    (fun j y hj _ => absurd hj (Nat.not_lt_zero j))

/-! ## Slide updater claims -/

theorem sortTextShapes_singleton (t : TextShape) : sortTextShapes [t] = [t] := by
  simp [sortTextShapes]

/-- C10: for every slide whose page elements contain no TEXT_BOX shape, the
slide-update function returns right after the diagnostic of lines 465-467:
the outcome is `noTextBoxes`, so no text edit is computed or sent and the
audio upload/insertion step is never reached — even with `add_audio=true`
(fixed to `true` below) and regardless of whether the audio file exists
(the `fileExists` oracle is arbitrary). -/
theorem spec_C10 :
    ∀ (slides : List Slide) (jsondata : Record) (fieldMap : List (Nat × String))
      (slideIdx : Int) (audioDir : Option String) (audioIdx : Option Nat)
      (label : Option String) (audioPref : String) (fileExists : String → Bool)
      (upload : String → Except String String),
      ¬(slideIdx < 0 ∨ (slides.length : Int) ≤ slideIdx) →
      (∀ el ∈ slides.getD slideIdx.toNat [], ∀ sh, el.shape = some sh →
        sh.shapeType ≠ some "TEXT_BOX") →
      update_slide_text_fields slides jsondata fieldMap slideIdx audioDir
          audioIdx label true audioPref fileExists upload = .ok .noTextBoxes := by
  intro slides jsondata fieldMap slideIdx audioDir audioIdx label audioPref
    fileExists upload hidx hno
  have hcol : collectTextShapes (slides.getD slideIdx.toNat []) = [] := by
    rw [collectTextShapes, List.filterMap_eq_nil_iff]
    intro el hel
    cases hsh : el.shape with
    | none => rfl
    | some sh =>
      simp only []
      rw [if_neg (hno el hel sh hsh)]
  unfold update_slide_text_fields
  rw [if_neg hidx]
  simp only [hcol]
  rfl

/-- Witness for C10: a slide holding a single RECTANGLE shape (with text but
not a TEXT_BOX) is left untouched and the audio step is skipped although
`add_audio=true` and the audio file exists. -/
theorem spec_C10_witness :
    update_slide_text_fields
        [[{ objectId := "e1",
            shape := some { shapeType := some "RECTANGLE",
                            textElements := [some "hello"] },
            video := false, translateX := 0, translateY := 0 }]]
        [("name", "X")] [(0, "name")] 0 (some "audio") (some 2)
        (some "capability_create") true "pref" (fun _ => true)
        (fun _ => .ok "fid")
      = .ok .noTextBoxes :=
  spec_C10
    [[{ objectId := "e1",
        shape := some { shapeType := some "RECTANGLE", textElements := [some "hello"] },
        video := false, translateX := 0, translateY := 0 }]]
    [("name", "X")] [(0, "name")] 0 (some "audio") (some 2)
    (some "capability_create") "pref" (fun _ => true) (fun _ => .ok "fid")
    (by decide)
    (by
      intro el hel sh hsh
      simp at hel
      subst hel
      cases hsh
      decide)

theorem update_slide_text_fields_of_textShapes {slides : List Slide}
    {jsondata : Record} {fieldMap : List (Nat × String)} {slideIdx : Int}
    {audioDir : Option String} {audioIdx : Option Nat} {label : Option String}
    {addAudio : Bool} {audioPref : String} {fileExists : String → Bool}
    {upload : String → Except String String}
    (hidx : ¬(slideIdx < 0 ∨ (slides.length : Int) ≤ slideIdx))
    (hne : (collectTextShapes (slides.getD slideIdx.toNat [])).length ≠ 0) :
    update_slide_text_fields slides jsondata fieldMap slideIdx audioDir
        audioIdx label addAudio audioPref fileExists upload
      = .ok (.updated
          (computeEdits fieldMap
            (sortTextShapes (collectTextShapes (slides.getD slideIdx.toNat [])))
            jsondata)
          (computeEdits fieldMap
            (sortTextShapes (collectTextShapes (slides.getD slideIdx.toNat [])))
            jsondata ≠ [])
          (audioStep addAudio audioDir audioIdx label slideIdx audioPref
            fileExists upload)) := by
  unfold update_slide_text_fields
  rw [if_neg hidx]
  dsimp only
  rw [if_neg hne]

/-- C9 counterexample: a run in which the audio upload fails with
"storageQuotaExceeded" while everything else succeeds.  The exception is
caught inside `update_slide_text_fields` (recorded as `insertFailed` in the
slide outcome), `update_slides` returns normally, and the job finishes in
state "completed" — not "error" as the claim asserts. -/
theorem spec_C9_counterexample :
    update_slides "pid"
        [[{ objectId := "t1",
            shape := some { shapeType := some "TEXT_BOX", textElements := [some "old"] },
            video := false, translateX := 0, translateY := 0 }]]
        [⟨"cap_create", .int 1, .noSource, [(0, "name")], true⟩] []
        (some "audio") "" (fun _ => true)
        (fun _ => .error "storageQuotaExceeded")
      = .ok ([⟨"cap_create", 0, some 2,
            .updated [] false (.insertFailed "storageQuotaExceeded")⟩],
          presentationUrl "pid") ∧
    (run_full_pipeline (.ok []) (some "pid")
        (fun contentDict =>
          (update_slides "pid"
              [[{ objectId := "t1",
                  shape := some { shapeType := some "TEXT_BOX", textElements := [some "old"] },
                  video := false, translateX := 0, translateY := 0 }]]
              [⟨"cap_create", .int 1, .noSource, [(0, "name")], true⟩] contentDict
              (some "audio") "" (fun _ => true)
              (fun _ => .error "storageQuotaExceeded")).map Prod.snd)
        "email" (some "user@example.com") (.ok ()) newJob).status
      = "completed" := by
  have hupd : update_slide_text_fields
      [[{ objectId := "t1",
          shape := some { shapeType := some "TEXT_BOX", textElements := [some "old"] },
          video := false, translateX := 0, translateY := 0 }]]
      [] [(0, "name")] 0 (some "audio") (some 2) (some "cap_create") true ""
      (fun _ => true) (fun _ => .error "storageQuotaExceeded")
      = .ok (.updated [] false (.insertFailed "storageQuotaExceeded")) := by
    rw [update_slide_text_fields_of_textShapes (by decide) (by decide)]
    rw [show collectTextShapes
        (([[{ objectId := "t1",
              shape := some { shapeType := some "TEXT_BOX", textElements := [some "old"] },
              video := false, translateX := 0, translateY := 0 }]] : List Slide).getD
          (Int.toNat 0) [])
        = [⟨"t1", { shapeType := some "TEXT_BOX", textElements := [some "old"] }, 0, 0⟩]
      from by decide]
    rw [sortTextShapes_singleton]
    rfl
  have hloopEq : updateSlidesLoop
      [[{ objectId := "t1",
          shape := some { shapeType := some "TEXT_BOX", textElements := [some "old"] },
          video := false, translateX := 0, translateY := 0 }]]
      [("cap_create", 0)] [] (some "audio") "" (fun _ => true)
      (fun _ => .error "storageQuotaExceeded") 1
      [⟨"cap_create", .int 1, .noSource, [(0, "name")], true⟩]
      = .ok [⟨"cap_create", 0, some 2,
          .updated [] false (.insertFailed "storageQuotaExceeded")⟩] := by
    unfold updateSlidesLoop
    split
    · rename_i hlk
      exact absurd (hlk.symm.trans (show List.lookup "cap_create"
        [("cap_create", (0 : Int))] = some 0 from rfl)) (by simp)
    · rename_i idx hlk
      have hidx0 : idx = 0 := (Option.some.inj ((show List.lookup "cap_create"
        [("cap_create", (0 : Int))] = some 0 from rfl).symm.trans hlk)).symm
      subst hidx0
      split
      · rename_i e hupd'
        exact absurd (hupd'.symm.trans hupd) (by simp)
      · rename_i outcome hupd'
        have houtcome : outcome
            = .updated [] false (.insertFailed "storageQuotaExceeded") :=
          Except.ok.inj (hupd'.symm.trans hupd)
        subst houtcome
        rfl
  have h1 : update_slides "pid"
      [[{ objectId := "t1",
          shape := some { shapeType := some "TEXT_BOX", textElements := [some "old"] },
          video := false, translateX := 0, translateY := 0 }]]
      [⟨"cap_create", .int 1, .noSource, [(0, "name")], true⟩] []
      (some "audio") "" (fun _ => true)
      (fun _ => .error "storageQuotaExceeded")
      = .ok ([⟨"cap_create", 0, some 2,
            .updated [] false (.insertFailed "storageQuotaExceeded")⟩],
          presentationUrl "pid") := by
    unfold update_slides
    split
    · rename_i e hres
      exact absurd (hres.symm.trans (show resolve_positions
          [⟨"cap_create", .int 1, .noSource, [(0, "name")], true⟩]
          = .ok [("cap_create", 0)] from rfl)) (by simp)
    · rename_i positions hres
      have hpos : positions = [("cap_create", 0)] :=
        Except.ok.inj ((show resolve_positions
          [⟨"cap_create", .int 1, .noSource, [(0, "name")], true⟩]
          = .ok [("cap_create", 0)] from rfl).symm.trans hres) |>.symm
      subst hpos
      split
      · rename_i e hloop
        exact absurd (hloop.symm.trans hloopEq) (by simp)
      · rename_i rs hloop
        have hrs : rs = [⟨"cap_create", 0, some 2,
            .updated [] false (.insertFailed "storageQuotaExceeded")⟩] :=
          Except.ok.inj (hloop.symm.trans hloopEq)
        subst hrs
        rfl
  refine ⟨h1, ?_⟩
  unfold run_full_pipeline
  dsimp only
  rw [h1]
  rfl

/-- C9 (amended): a storage-quota-exceeded failure during the audio upload
is caught inside the slide updater's audio step (the `except` of line 575
catches every upload/insert exception) and recorded only as a diagnostic
outcome — it does not propagate, so it cannot flip the job to error; a
delivery (email) failure after the document update has succeeded is likewise
caught and logged and leaves the job in the completed state with its result
link. -/
theorem spec_C9 :
    (∀ (audioDir : Option String) (audioIdx : Option Nat)
        (label : Option String) (slideIdx : Int) (audioPref : String)
        (fileExists : String → Bool) (upload : String → Except String String)
        (e : String),
      audioDirTruthy audioDir = true →
      fileExists (audioPath (audioDir.getD "")
          (audioFilename audioPref audioIdx label slideIdx)) = true →
      upload (audioPath (audioDir.getD "")
          (audioFilename audioPref audioIdx label slideIdx)) = .error e →
      audioStep true audioDir audioIdx label slideIdx audioPref fileExists
          upload = .insertFailed e) ∧
    (∀ (bundle : Bundle) (pid : String) (url : String) (mode : String)
        (emailAddr : Option String) (emailSend : Except String Unit)
        (job : Job),
      (run_full_pipeline (.ok bundle) (some pid) (fun _ => .ok url) mode
          emailAddr emailSend job).status = "completed" ∧
      (run_full_pipeline (.ok bundle) (some pid) (fun _ => .ok url) mode
          emailAddr emailSend job).slides_url = some url) := by
  constructor
  · intro audioDir audioIdx label slideIdx audioPref fileExists upload e
      hdir hfe hup
    unfold audioStep
    rw [if_pos (by simp [hdir])]
    dsimp only
    rw [if_pos hfe, hup]
  · intro bundle pid url mode emailAddr emailSend job
    constructor
    · unfold run_full_pipeline
      dsimp only
      split <;> rfl
    · unfold run_full_pipeline
      dsimp only
      split <;> rfl

/-- Witness for C9 (amended): a concrete quota-failing upload yields the
caught `insertFailed` outcome, and a concrete failing email send leaves a
completed job. -/
theorem spec_C9_witness :
    audioStep true (some "audio") (some 2) (some "cap_create") 0 ""
        (fun _ => true) (fun _ => .error "storageQuotaExceeded")
      = .insertFailed "storageQuotaExceeded" ∧
    (run_full_pipeline (.ok []) (some "pid") (fun _ => .ok "url") "email"
        (some "user@example.com") (.error "smtp down") newJob).status
      = "completed" :=
  ⟨spec_C9.1 (some "audio") (some 2) (some "cap_create") 0 ""
      (fun _ => true) (fun _ => .error "storageQuotaExceeded")
      "storageQuotaExceeded" rfl rfl rfl,
    (spec_C9.2 [] "pid" "url" "email" (some "user@example.com")
      (.error "smtp down") newJob).1⟩
